import Mathlib

/-!
Verification of the lxinfo information-gathering library (`src/info.rs`).

Strings are modelled as `List Char` (`Str`), so that every operation is an
executable, kernel-reducible function.  Rust's string primitives
(`str::split` on a non-empty pattern, `str::lines`, `str::split_whitespace`,
`str::starts_with`, `str::contains`, `str::replace`) are embedded as plain
recursive functions with the same observable behaviour; Unicode whitespace
classes are abstracted to the ASCII forms recognised by `Char.isWhitespace`.

Fallible Rust computations are embedded in `RRes`: `RRes.ok` is a normal
value, `RRes.noneRet` is an early `None` return through the `?` operator,
and `RRes.panicked` is a `panic!`/`expect`/`unwrap` abort.
-/

namespace LxInfo

/-- Strings modelled as lists of characters. -/
abbrev Str := List Char

/-- Convenience conversion from Lean string literals. -/
def str (s : String) : Str := s.toList

/-- Rust `to_string` on an unsigned integer. -/
def natStr (n : Nat) : Str := (Nat.repr n).toList

/-- Rust `str::starts_with` / prefix test for the pattern `p` against `s`. -/
def begMatch : Str → Str → Bool
  | [], _ => true
  | _ :: _, [] => false
  | a :: as, b :: bs => a == b && begMatch as bs

/-- Fuel-driven core of Rust `str::split` on a non-empty pattern: the pieces
of `s` between consecutive non-overlapping leftmost matches of `sep`.
The fuel only has to dominate the length of `s`; `splitStr` supplies it. -/
def splitStrF (sep : Str) : Nat → Str → List Str
  | _, [] => [[]]
  | 0, s => [s]
  | fuel + 1, c :: rest =>
    if sep = [] then [c :: rest]
    else if begMatch sep (c :: rest) then
      [] :: splitStrF sep fuel (List.drop (sep.length - 1) rest)
    else
      match splitStrF sep fuel rest with
      | [] => [[c]]
      | r :: rs => (c :: r) :: rs

/-- Rust `str::split` on a non-empty pattern (the library only ever splits on
the non-empty patterns `"KEY="`, `'\n'`, `'"'`, `'.'`, `'/'`, `'\0'`). -/
def splitStr (sep s : Str) : List Str := splitStrF sep (s.length + 1) s

/-- Membership test mirroring Rust `str::contains` for a substring pattern. -/
def containsSub (s pat : Str) : Bool :=
  match s with
  | [] => pat = []
  | _ :: rest => begMatch pat s || containsSub rest pat

/-- Accumulator-based core of Rust `str::split_whitespace`. -/
def splitWsAux : Str → Str → List Str
  | [], acc => if acc = [] then [] else [acc.reverse]
  | c :: rest, acc =>
    if c.isWhitespace then
      if acc = [] then splitWsAux rest []
      else acc.reverse :: splitWsAux rest []
    else splitWsAux rest (c :: acc)

/-- Rust `str::split_whitespace`: maximal runs of non-whitespace characters. -/
def splitWhitespace (s : Str) : List Str := splitWsAux s []

/-- Strip one trailing carriage return, as Rust `str::lines` does on
newline-terminated lines. -/
def stripCR (l : Str) : Str := if l.getLast? = some '\r' then l.dropLast else l

/-- Rust `str::lines`: split at `'\n'`, drop a final empty piece produced by a
trailing newline, and strip a `'\r'` preceding each `'\n'`. -/
def rustLines (s : Str) : List Str :=
  let chunks := splitStr ['\n'] s
  match chunks.getLast? with
  | none => []
  | some [] => chunks.dropLast.map stripCR
  | some lastChunk => chunks.dropLast.map stripCR ++ [lastChunk]

/-- Joining a list of pieces with a separator, used to state round-trip and
formatting properties. -/
def joinSep (sep : Str) : List Str → Str
  | [] => []
  | [x] => x
  | x :: y :: xs => x ++ sep ++ joinSep sep (y :: xs)

/-- Embedding of `parse_osr_key` (src/info.rs:53-66): split on `"KEY="`, take
the piece after the first match (`nth(1)?`), keep only its first line when it
contains a newline (`split('\n').next()?`), and drop every double quote when
one is present (`replace('"', "")`). -/
def parse_osr_key (os_release key : Str) : Option Str :=
  match (splitStr (key ++ ['=']) os_release)[1]? with
  | none => none
  | some s0 =>
    match (if s0.contains '\n' then (splitStr ['\n'] s0).head? else some s0) with
    | none => none
    | some s1 => some (if s1.contains '"' then s1.filter (fun c => c != '"') else s1)

/-- Modelled from the spec for the C6 comparison: the remainder of the text
after the first occurrence of `"KEY="`, truncated at end-of-line, with every
double-quote character removed. -/
def parse_osr_key_spec (os_release key : Str) : Option Str :=
  match splitStr (key ++ ['=']) os_release with
  | [] => none
  | [_] => none
  | p0 :: _ :: _ =>
    some ((if (os_release.drop (p0.length + (key ++ ['=']).length)).contains '\n'
           then (splitStr ['\n']
                  (os_release.drop (p0.length + (key ++ ['=']).length))).headD []
           else os_release.drop (p0.length + (key ++ ['=']).length)).filter
            (fun c => c != '"'))

/-- Embedding of `parse_minf_key` (src/info.rs:69-72): first line whose
prefix is `key`, second whitespace-separated token of that line. -/
def parse_minf_key (meminfo key : Str) : Option Str :=
  match (rustLines meminfo).find? (fun line => begMatch key line) with
  | none => none
  | some line => (splitWhitespace line)[1]?

/-- Modelled from the spec for the C7 comparison: scan for the first line
whose prefix matches the key, split it on whitespace runs, and return the
second token; absence when no line matches or fewer than two tokens exist. -/
def parse_minf_key_spec (meminfo key : Str) : Option Str :=
  match (rustLines meminfo).find? (fun line => begMatch key line) with
  | none => none
  | some line =>
    let toks := splitWhitespace line
    if toks.length < 2 then none else toks[1]?

/-- Numeric value of a digit string (most significant digit first). -/
def digitsVal (ds : Str) : Nat :=
  ds.foldl (fun acc c => acc * 10 + (c.toNat - 48)) 0

/-- Rust `str::parse::<u32>`: an optional leading `'+'`, then at least one
decimal digit, value below `2^32`; anything else (including embedded
whitespace and overflow) is a parse error. -/
def parseU32 (s : Str) : Option Nat :=
  let digits := match s with
    | '+' :: rest => rest
    | _ => s
  if digits ≠ [] ∧ digits.all (fun c => c.isDigit) then
    if digitsVal digits < 4294967296 then some (digitsVal digits) else none
  else none

/-- Rust `str::parse::<f64>` modelled on plain decimal strings: optional
sign, integer digits, optional `'.'` and fraction digits (at least one digit
overall).  The exact decimal value is kept as a rational; binary rounding is
abstracted away (it preserves order and the sign of differences), and the
exotic accepted forms (exponents, `inf`, `NaN`) never produced by the
modelled sources are mapped to failure. -/
def parseF64 (s : Str) : Option ℚ :=
  let signed : Int × Str := match s with
    | '+' :: rest => (1, rest)
    | '-' :: rest => (-1, rest)
    | rest => (1, rest)
  let intPart := signed.2.takeWhile (fun c => c.isDigit)
  let afterInt := signed.2.dropWhile (fun c => c.isDigit)
  match afterInt with
  | [] => if intPart = [] then none
          else some (mkRat (signed.1 * digitsVal intPart) 1)
  | '.' :: frac =>
    if frac.all (fun c => c.isDigit) ∧ (intPart ≠ [] ∨ frac ≠ []) then
      some (mkRat (signed.1 * (digitsVal intPart * 10 ^ frac.length + digitsVal frac))
              (10 ^ frac.length))
    else none
  | _ => none

/-- Uptime decomposition (src/info.rs:127): whole days. -/
def uptimeDays (s : Nat) : Nat := s / 86400

/-- Uptime decomposition (src/info.rs:128): total hours since start (the
source deliberately does not reduce modulo a day). -/
def uptimeHours (s : Nat) : Nat := s / 3600

/-- Uptime decomposition (src/info.rs:129): minutes within the hour. -/
def uptimeMinutes (s : Nat) : Nat := s % 3600 / 60

/-- State of the `result` string after the days block (src/info.rs:133-139). -/
def fmtDays (s : Nat) : Str :=
  if 0 < uptimeDays s then
    natStr (uptimeDays s) ++ (if 1 < uptimeDays s then str " days" else str " day") ++
      (if 0 < uptimeHours s then [','] else [])
  else []

/-- State of the `result` string after the hours block (src/info.rs:141-151). -/
def fmtHours (s : Nat) : Str :=
  if 0 < uptimeHours s then
    (if 0 < uptimeDays s then fmtDays s ++ [' '] else fmtDays s) ++
      natStr (uptimeHours s) ++
      (if 1 < uptimeHours s then str " hours" else str " hour") ++
      (if 0 < uptimeMinutes s then [','] else [])
  else fmtDays s

/-- State of the `result` string after the minutes block
(src/info.rs:153-160). -/
def fmtMinutes (s : Nat) : Str :=
  if 0 < uptimeMinutes s then
    (if 0 < uptimeHours s ∨ 0 < uptimeDays s then fmtHours s ++ [' '] else fmtHours s) ++
      natStr (uptimeMinutes s) ++
      (if 1 < uptimeMinutes s then str " minutes" else str " minute")
  else fmtHours s

/-- Final formatted uptime string, with the raw-seconds fallback when all
three components are zero (src/info.rs:164-171). -/
def uptimeFormatted (s : Nat) : Str :=
  if fmtMinutes s = [] then
    natStr s ++ (if 1 < s then str " seconds" else str " second")
  else fmtMinutes s

/-- Elapsed seconds extracted from the raw `/proc/uptime` text
(src/info.rs:121-126): the piece before the first `'.'`, parsed as `u32`,
any failure degrading to `0`. -/
def uptimeSecondsOf (text : Str) : Nat :=
  (parseU32 ((splitStr ['.'] text).headD [])).getD 0

/-- Modelled from the spec words of C8: the integer part of the first
whitespace-or-dot-delimited token, any parse failure degrading to `0`. -/
def specUptimeSeconds (text : Str) : Nat :=
  (parseU32 (text.takeWhile (fun c => !(c.isWhitespace || c == '.')))).getD 0

/-- The `Uptime` record (src/info.rs:36-42). -/
structure Uptime where
  formatted : Str
  seconds : Nat
  minutes : Nat
  hours : Nat
  days : Nat
deriving DecidableEq

/-- Embedding of `get_uptime` (src/info.rs:118-180) as a function of the raw
`/proc/uptime` content (the read itself, and its possible I/O panic, are
outside the model). -/
def get_uptime (text : Str) : Uptime :=
  { formatted := uptimeFormatted (uptimeSecondsOf text)
    seconds := uptimeSecondsOf text
    minutes := uptimeMinutes (uptimeSecondsOf text)
    hours := uptimeHours (uptimeSecondsOf text)
    days := uptimeDays (uptimeSecondsOf text) }

/-- Result of a fallible Rust computation: a value, an early `None` return
through the `?` operator, or a `panic!`-style abort. -/
inductive RRes (α : Type) where
  | ok : α → RRes α
  | noneRet : RRes α
  | panicked : String → RRes α
deriving DecidableEq

/-- The `?` operator on an `Option`. -/
def rtry {α : Type} : Option α → RRes α
  | some a => RRes.ok a
  | none => RRes.noneRet

/-- Rust `Option::expect` / `unwrap`: abort with a message on `None`. -/
def rexpect {α : Type} (o : Option α) (msg : String) : RRes α :=
  match o with
  | some a => RRes.ok a
  | none => RRes.panicked msg

/-- Sequencing of fallible computations. -/
def RRes.bind {α β : Type} : RRes α → (α → RRes β) → RRes β
  | RRes.ok a, f => f a
  | RRes.noneRet, _ => RRes.noneRet
  | RRes.panicked m, _ => RRes.panicked m

/-- A computation failed: it either returned `None` or aborted. -/
def RRes.failed {α : Type} : RRes α → Bool
  | RRes.ok _ => false
  | _ => true

/-- The `byte_unit` crate's `Byte::from_unit(number, ByteUnit::KB)`: rejects
negative magnitudes, otherwise yields the byte count (1 KB = 1000 B). -/
def Byte_from_unit_KB (number : ℚ) : Option ℚ :=
  if number < 0 then none else some (number * 1000)

/-- Embedding of `kb_to_gb` (src/info.rs:81-84): `Byte::from_unit(..).unwrap()`
aborts on a conversion error; the adjusted-unit result is kept as the exact
gigabyte quantity (1 GB = 10^9 B), with the decimal string rendering of the
`byte_unit` crate abstracted away. -/
def kb_to_gb (number : ℚ) : RRes ℚ :=
  (rexpect (Byte_from_unit_KB number) "called Result::unwrap() on an Err value").bind
    fun bytes => RRes.ok (bytes / 1000000000)

/-- Embedding of `minf_get_gb` (src/info.rs:75-78): both the key lookup and
the float parse are `unwrap`ped. -/
def minf_get_gb (meminfo key : Str) : RRes ℚ :=
  (rexpect (parse_minf_key meminfo key) "called Option::unwrap() on a None value").bind
    fun s =>
  (rexpect (parseF64 s) "called Result::unwrap() on an Err value").bind
    fun parsed =>
  kb_to_gb parsed

/-- The `Type` enum of the source (renamed: `Type` is reserved in Lean). -/
inductive RType where
  | Username : RType
  | HostName : RType
  | KernelVersion : RType
deriving DecidableEq

/-- The OS-provided inputs of one gather call: file contents, the `SHELL`
environment variable, the login name (`None` when `getlogin` yields no valid
name), and the `nodename` / `release` fields of the `utsname` buffer, already
decoded to characters (the UTF-8 validity panics of `String::from_utf8` /
`to_str` on these buffers are outside the model). -/
structure Env where
  os_release : Str
  meminfo : Str
  uptime : Str
  shell_var : Option Str
  login : Option Str
  nodename : Str
  release : Str

/-- Embedding of `get_by_type` (src/info.rs:87-114).  The result is
`RRes (Option Str)`: the function's own `Option` return is kept inside
`RRes.ok`, so an early `None` return surfaces as `RRes.ok none`. -/
def get_by_type (env : Env) (t : RType) : RRes (Option Str) :=
  (match t with
    | RType.Username => rexpect env.login "[ERROR] Failed retrieving username!"
    | RType.HostName => RRes.ok env.nodename
    | RType.KernelVersion => RRes.ok env.release).bind fun result =>
  RRes.ok (if result.contains '\x00' then (splitStr ['\x00'] result).head?
           else some result)

/-- The `SystemInfo` record (src/info.rs:16-33).  Memory fields hold the
exact gigabyte quantities produced by `kb_to_gb` (string rendering
abstracted). -/
structure SystemInfo where
  distro_name : Str
  distro_id : Str
  distro_build_id : Str
  username : Str
  hostname : Str
  shell : Str
  kernel : Str
  uptime_seconds : Nat
  uptime_minutes : Nat
  uptime_hours : Nat
  uptime_days : Nat
  uptime_formatted : Str
  total_mem : ℚ
  cached_mem : ℚ
  available_mem : ℚ
  used_mem : ℚ
deriving DecidableEq

/-- Embedding of `get_system_information` (src/info.rs:184-225), as a
function of the gathered OS inputs.  The two `read_to_string` calls are
replaced by the provided file contents. -/
def get_system_information (env : Env) : RRes SystemInfo :=
  (rtry (parse_osr_key env.os_release (str "NAME"))).bind fun distro_name =>
  (rtry (parse_osr_key env.os_release (str "ID"))).bind fun distro_id =>
  (rtry (parse_osr_key env.os_release (str "BUILD_ID"))).bind fun distro_build_id =>
  ((get_by_type env RType.Username).bind fun o => rtry o).bind fun username =>
  ((get_by_type env RType.HostName).bind fun o => rtry o).bind fun hostname =>
  ((rexpect env.shell_var "called Result::unwrap() on an Err value").bind fun sv =>
    rtry (splitStr ['/'] sv).getLast?).bind fun shell =>
  ((get_by_type env RType.KernelVersion).bind fun o => rtry o).bind fun kernel =>
  (minf_get_gb env.meminfo (str "MemTotal")).bind fun total_mem =>
  (minf_get_gb env.meminfo (str "Cached")).bind fun cached_mem =>
  (minf_get_gb env.meminfo (str "MemAvailable")).bind fun available_mem =>
  (rtry (parse_minf_key env.meminfo (str "MemTotal"))).bind fun tks =>
  (rexpect (parseF64 tks) "called Result::unwrap() on an Err value").bind fun total_kb =>
  (rtry (parse_minf_key env.meminfo (str "MemAvailable"))).bind fun aks =>
  (rexpect (parseF64 aks) "called Result::unwrap() on an Err value").bind fun available_kb =>
  (kb_to_gb (total_kb - available_kb)).bind fun used_mem =>
  RRes.ok
    { distro_name := distro_name
      distro_id := distro_id
      distro_build_id := distro_build_id
      username := username
      hostname := hostname
      shell := shell
      kernel := kernel
      uptime_seconds := (get_uptime env.uptime).seconds
      uptime_minutes := (get_uptime env.uptime).minutes
      uptime_hours := (get_uptime env.uptime).hours
      uptime_days := (get_uptime env.uptime).days
      uptime_formatted := (get_uptime env.uptime).formatted
      total_mem := total_mem
      cached_mem := cached_mem
      available_mem := available_mem
      used_mem := used_mem }

/-- The clause list of the uptime format: one singular/plural-selected clause
per non-zero component, in the order days, hours, minutes. -/
def uptimeClauses (s : Nat) : List Str :=
  (if 0 < uptimeDays s then
    [natStr (uptimeDays s) ++ (if 1 < uptimeDays s then str " days" else str " day")]
   else []) ++
  (if 0 < uptimeHours s then
    [natStr (uptimeHours s) ++ (if 1 < uptimeHours s then str " hours" else str " hour")]
   else []) ++
  (if 0 < uptimeMinutes s then
    [natStr (uptimeMinutes s) ++
      (if 1 < uptimeMinutes s then str " minutes" else str " minute")]
   else [])

/-- A concrete environment on which every gather step succeeds. -/
def envW : Env :=
  { os_release := str "NAME=Arch\nID=arch\nBUILD_ID=rolling\n"
    meminfo := str "MemTotal: 4 kB\nCached: 2 kB\nMemAvailable: 3 kB\n"
    uptime := str "65.91 130.52"
    shell_var := some (str "/bin/bash")
    login := some (str "user")
    nodename := str "host"
    release := str "6.1.0" }

/-- The `SystemInfo` value gathered from `envW`. -/
def siW : SystemInfo :=
  { distro_name := str "Arch"
    distro_id := str "arch"
    distro_build_id := str "rolling"
    username := str "user"
    hostname := str "host"
    shell := str "bash"
    kernel := str "6.1.0"
    uptime_seconds := 65
    uptime_minutes := 1
    uptime_hours := 0
    uptime_days := 0
    uptime_formatted := str "1 minute"
    total_mem := (4 : ℚ) * 1000 / 1000000000
    cached_mem := (2 : ℚ) * 1000 / 1000000000
    available_mem := (3 : ℚ) * 1000 / 1000000000
    used_mem := ((4 : ℚ) - 3) * 1000 / 1000000000 }

/-- A concrete environment whose parsed `MemAvailable` exceeds its parsed
`MemTotal`. -/
def envW2 : Env :=
  { envW with meminfo := str "MemTotal: 1 kB\nCached: 1 kB\nMemAvailable: 2 kB\n" }

theorem splitStrF_ne_nil (sep : Str) (fuel : Nat) (s : Str) :
    splitStrF sep fuel s ≠ [] := by
  match fuel, s with
  | _, [] => simp [splitStrF]
  | 0, _ :: _ => simp [splitStrF]
  | fuel + 1, c :: rest =>
    simp only [splitStrF]
    split
    · simp
    · split
      · simp
      · split <;> simp

theorem splitStr_ne_nil (sep s : Str) : splitStr sep s ≠ [] :=
  splitStrF_ne_nil sep (s.length + 1) s

/-- A successful prefix match decomposes the string. -/
theorem begMatch_exists {p s : Str} (h : begMatch p s = true) :
    ∃ t, s = p ++ t := by
  induction p generalizing s with
  | nil => exact ⟨s, rfl⟩
  | cons a as ih =>
    match s with
    | [] => simp [begMatch] at h
    | b :: bs =>
      simp only [begMatch, Bool.and_eq_true, beq_iff_eq] at h
      obtain ⟨t, ht⟩ := ih h.2
      exact ⟨t, by simp [h.1, ht]⟩

theorem begMatch_singleton (c : Char) (b : Char) (bs : Str) :
    begMatch [c] (b :: bs) = (c == b) := by
  simp [begMatch]

/-- Splitting on a single character: the first piece is the maximal prefix
free of that character. -/
theorem splitStrF_singleton_head (c : Char) (fuel : Nat) (s : Str)
    (hf : s.length < fuel) :
    (splitStrF [c] fuel s).head? = some (s.takeWhile (fun x => x != c)) := by
  induction fuel generalizing s with
  | zero => omega
  | succ fuel ih =>
    match s with
    | [] => simp [splitStrF]
    | b :: bs =>
      simp only [splitStrF]
      rw [if_neg (by simp)]
      rw [begMatch_singleton]
      by_cases hcb : c = b
      · rw [if_pos (by simp [hcb])]
        simp [List.takeWhile, hcb]
      · rw [if_neg (by simp [hcb])]
        have hbs : bs.length < fuel := by simp at hf; omega
        have hne := splitStrF_ne_nil [c] fuel bs
        match hsp : splitStrF [c] fuel bs with
        | [] => exact absurd hsp hne
        | r :: rs =>
          have := ih bs hbs
          rw [hsp] at this
          simp only [List.head?] at this
          have hb : (b != c) = true := by
            simp [bne_iff_ne]; exact fun hx => hcb hx.symm
          simp [List.takeWhile, hb, ← Option.some_inj.mp this]

theorem splitStr_singleton_head (c : Char) (s : Str) :
    (splitStr [c] s).head? = some (s.takeWhile (fun x => x != c)) :=
  splitStrF_singleton_head c (s.length + 1) s (by omega)

/-- Splitting and re-joining with the same non-empty pattern reconstructs the
original string. -/
theorem joinSep_splitStrF (sep : Str) (hsep : sep ≠ []) (fuel : Nat) :
    ∀ s : Str, s.length < fuel → joinSep sep (splitStrF sep fuel s) = s := by
  induction fuel with
  | zero => intro s h; omega
  | succ fuel ih =>
    intro s hf
    match s with
    | [] => simp [splitStrF, joinSep]
    | c :: rest =>
      simp only [splitStrF, if_neg hsep]
      by_cases hpre : begMatch sep (c :: rest) = true
      · rw [if_pos hpre]
        obtain ⟨t, ht⟩ := begMatch_exists hpre
        match hsd : sep with
        | [] => exact absurd rfl hsep
        | d :: ds =>
          have hc : c = d ∧ rest = ds ++ t := by simpa using ht
          have hdrop : List.drop ((d :: ds).length - 1) rest = t := by
            rw [hc.2]
            simp
          rw [hdrop]
          have htl : t.length < fuel := by
            have : rest.length = ds.length + t.length := by rw [hc.2]; simp
            simp at hf
            omega
          have hne := splitStrF_ne_nil (d :: ds) fuel t
          match hsp : splitStrF (d :: ds) fuel t with
          | [] => exact absurd hsp hne
          | r :: rs =>
            have hrec := ih t htl
            rw [hsp] at hrec
            simp only [joinSep]
            rw [hrec, hc.1, hc.2]
            simp
      · rw [if_neg hpre]
        have hrl : rest.length < fuel := by simp at hf; omega
        have hne := splitStrF_ne_nil sep fuel rest
        match hsp : splitStrF sep fuel rest with
        | [] => exact absurd hsp hne
        | r :: rs =>
          have hrec := ih rest hrl
          rw [hsp] at hrec
          match rs with
          | [] =>
            simp only [joinSep] at hrec ⊢
            rw [hrec]
          | r2 :: rs' =>
            simp only [joinSep] at hrec ⊢
            rw [← hrec]
            simp

theorem joinSep_splitStr (sep : Str) (hsep : sep ≠ []) (s : Str) :
    joinSep sep (splitStr sep s) = s :=
  joinSep_splitStrF sep hsep (s.length + 1) s (by omega)

/-- A non-empty pattern produces at least two pieces exactly when it occurs
somewhere in the string. -/
theorem splitStrF_two_iff_containsSub (sep : Str) (hsep : sep ≠ []) (fuel : Nat) :
    ∀ s : Str, s.length < fuel →
      (2 ≤ (splitStrF sep fuel s).length ↔ containsSub s sep = true) := by
  induction fuel with
  | zero => intro s h; omega
  | succ fuel ih =>
    intro s hf
    match s with
    | [] =>
      simp [splitStrF, containsSub, hsep]
    | c :: rest =>
      simp only [splitStrF, if_neg hsep, containsSub]
      by_cases hpre : begMatch sep (c :: rest) = true
      · rw [if_pos hpre, hpre]
        have hne := splitStrF_ne_nil sep fuel (List.drop (sep.length - 1) rest)
        match hsp : splitStrF sep fuel (List.drop (sep.length - 1) rest) with
        | [] => exact absurd hsp hne
        | r :: rs => simp
      · rw [if_neg hpre]
        have hrl : rest.length < fuel := by simp at hf; omega
        have hne := splitStrF_ne_nil sep fuel rest
        match hsp : splitStrF sep fuel rest with
        | [] => exact absurd hsp hne
        | r :: rs =>
          have hrec := ih rest hrl
          rw [hsp] at hrec
          simp only [List.length_cons] at hrec ⊢
          rw [Bool.eq_false_iff.mpr hpre]
          simpa using hrec

theorem splitStr_two_iff_containsSub (sep : Str) (hsep : sep ≠ []) (s : Str) :
    2 ≤ (splitStr sep s).length ↔ containsSub s sep = true :=
  splitStrF_two_iff_containsSub sep hsep (s.length + 1) s (by omega)

/-- If a character does not occur in a list, `takeWhile` keeps everything. -/
theorem takeWhile_eq_self_of_not_contains {l : Str} {a : Char}
    (h : l.contains a = false) : l.takeWhile (fun c => c != a) = l := by
  induction l with
  | nil => rfl
  | cons c t ih =>
    simp only [List.contains_cons, Bool.or_eq_false_iff, beq_eq_false_iff_ne] at h
    have hc : (c != a) = true := by simp [bne_iff_ne]; exact fun hx => h.1 hx.symm
    simp only [List.takeWhile, hc]
    rw [ih (by simpa using h.2)]

/-- If a character does not occur in a list, filtering it out is the
identity. -/
theorem filter_eq_self_of_not_contains {l : Str} {a : Char}
    (h : l.contains a = false) : l.filter (fun c => c != a) = l := by
  induction l with
  | nil => rfl
  | cons c t ih =>
    simp only [List.contains_cons, Bool.or_eq_false_iff, beq_eq_false_iff_ne] at h
    have hc : (c != a) = true := by simp [bne_iff_ne]; exact fun hx => h.1 hx.symm
    simp only [List.filter, hc]
    rw [ih (by simpa using h.2)]

@[simp] theorem RRes.ok_bind {α β : Type} (a : α) (f : α → RRes β) :
    (RRes.ok a).bind f = f a := rfl

@[simp] theorem RRes.noneRet_bind {α β : Type} (f : α → RRes β) :
    (RRes.noneRet : RRes α).bind f = RRes.noneRet := rfl

@[simp] theorem RRes.panicked_bind {α β : Type} (m : String) (f : α → RRes β) :
    (RRes.panicked m : RRes α).bind f = RRes.panicked m := rfl

theorem RRes.failed_bind {α β : Type} (x : RRes α) (f : α → RRes β)
    (h : ∀ a, x = RRes.ok a → ((f a).failed = true)) :
    (x.bind f).failed = true := by
  cases x with
  | ok a => exact RRes.ok_bind a f ▸ h a rfl
  | noneRet => rfl
  | panicked m => rfl

theorem RRes.bind_eq_ok {α β : Type} {x : RRes α} {f : α → RRes β} {b : β}
    (h : x.bind f = RRes.ok b) : ∃ a, x = RRes.ok a ∧ f a = RRes.ok b := by
  cases x with
  | ok a => exact ⟨a, rfl, h⟩
  | noneRet => simp [RRes.bind] at h
  | panicked m => simp [RRes.bind] at h

theorem parse_osr_key_eq_none_iff (text key : Str) :
    parse_osr_key text key = none ↔ (splitStr (key ++ ['=']) text)[1]? = none := by
  unfold parse_osr_key
  match h1 : (splitStr (key ++ ['=']) text)[1]? with
  | none => simp
  | some s0 =>
    simp only
    by_cases hc : s0.contains '\n' = true
    · rw [if_pos hc]
      have hne := splitStr_ne_nil ['\n'] s0
      match h2 : (splitStr ['\n'] s0).head? with
      | none =>
        rw [List.head?_eq_none_iff] at h2
        exact absurd h2 hne
      | some s1 => simp
    · rw [if_neg hc]
      simp

/-- C2: for every gathered uptime, the reported days are `seconds / 86400`,
the reported hours are `seconds / 3600` (total hours since start, not hours
within the day), and the reported minutes are `seconds % 3600 / 60`; in
particular 90000 seconds give days 1, hours 25, minutes 0, and 65 seconds
give days 0, hours 0, minutes 1. -/
theorem c2_uptime_decomposition :
    (∀ text : Str,
      (get_uptime text).days = (get_uptime text).seconds / 86400 ∧
      (get_uptime text).hours = (get_uptime text).seconds / 3600 ∧
      (get_uptime text).minutes = (get_uptime text).seconds % 3600 / 60) ∧
    (uptimeDays 90000 = 1 ∧ uptimeHours 90000 = 25 ∧ uptimeMinutes 90000 = 0) ∧
    (uptimeDays 65 = 0 ∧ uptimeHours 65 = 0 ∧ uptimeMinutes 65 = 1) :=
  ⟨fun _ => ⟨rfl, rfl, rfl⟩, by decide, by decide⟩

/-- C4 counterexample: at zero uptime seconds the code formats `"0 second"`,
not `"0 seconds"` as the claim states (the plural marker is chosen by
`total_seconds > 1`, so zero takes the singular form). -/
theorem c4_counterexample :
    (get_uptime (str "0.00 0.00")).formatted = str "0 second" ∧
    str "0 second" ≠ str "0 seconds" := by decide

/-- C4 as amended: when the raw uptime seconds count is 0, the formatted
string is exactly `"0 second"` — the raw seconds count with the source's
plural selection, which treats every count at most 1 as singular. -/
theorem c4_zero_amended (text : Str) (h : uptimeSecondsOf text = 0) :
    (get_uptime text).formatted = str "0 second" := by
  show uptimeFormatted (uptimeSecondsOf text) = str "0 second"
  rw [h]
  decide

/-- C4 witness: the amended statement at the concrete input `"0.00 0.00"`. -/
theorem c4_witness : (get_uptime (str "0.00 0.00")).formatted = str "0 second" :=
  c4_zero_amended (str "0.00 0.00") (by decide)

/-- C5 counterexample: a key that occurs with an empty value makes
`parse_osr_key` return the empty string, not absence as the claim states. -/
theorem c5_counterexample :
    parse_osr_key (str "NAME=\n") (str "NAME") = some [] ∧
    (some [] : Option Str) ≠ none := by decide

/-- C5 as amended: `parse_osr_key` returns absence exactly when the pattern
`"KEY="` does not occur in the text; a key that occurs with no value on its
line yields the present-but-empty string instead. -/
theorem c5_absence_amended :
    (∀ text key : Str,
      (parse_osr_key text key = none ↔ containsSub text (key ++ ['=']) = false)) ∧
    parse_osr_key (str "NAME=\n") (str "NAME") = some [] := by
  refine ⟨fun text key => ?_, by decide⟩
  rw [parse_osr_key_eq_none_iff, List.getElem?_eq_none_iff]
  have h2 := splitStr_two_iff_containsSub (key ++ ['=']) (by simp) text
  rw [← Bool.not_eq_true, ← h2]
  omega

/-- C7: `parse_minf_key` returns the second whitespace-delimited token of the
first line whose prefix matches the key, and absence when no line matches or
the matching line has fewer than two tokens; in particular the key
`"MemTotal"` extracts `"16384000"` from a memory-statistics row. -/
theorem c7_minf_second_token :
    (∀ text key : Str, parse_minf_key text key = parse_minf_key_spec text key) ∧
    parse_minf_key (str "MemTotal:       16384000 kB\n") (str "MemTotal") =
      some (str "16384000") := by
  refine ⟨fun text key => ?_, by decide⟩
  unfold parse_minf_key parse_minf_key_spec
  cases hf : (rustLines text).find? (fun line => begMatch key line) with
  | none => rfl
  | some line =>
    simp only
    by_cases hl : (splitWhitespace line).length < 2
    · rw [if_pos hl, List.getElem?_eq_none_iff.mpr (by omega)]
    · rw [if_neg hl]

/-- C6 counterexample: with a second occurrence of the key pattern before the
first newline, the parser keeps only the text up to that second occurrence —
not the remainder up to end-of-line that the claim describes. -/
theorem c6_counterexample :
    parse_osr_key (str "A=x A=y\n") (str "A") = some (str "x ") ∧
    parse_osr_key_spec (str "A=x A=y\n") (str "A") = some (str "x A=y") ∧
    str "x " ≠ str "x A=y" := by decide

/-- C6 as amended: the parser extracts the text between the first occurrence
of `"KEY="` and the next occurrence of that pattern (or the end of the text),
truncated at the first newline, with every double quote removed; whenever the
pattern occurs at most once this coincides with the remainder up to
end-of-line with quotes removed, and the two concrete examples of the claim
hold as stated. -/
theorem c6_first_occurrence_amended :
    (∀ text key : Str, (splitStr (key ++ ['=']) text).length ≤ 2 →
      parse_osr_key text key = parse_osr_key_spec text key) ∧
    parse_osr_key (str "NAME=\"Ubuntu\"\nID=ubuntu\n") (str "NAME") =
      some (str "Ubuntu") ∧
    parse_osr_key (str "NAME=\"Ubuntu\"\nID=ubuntu\n") (str "ID") =
      some (str "ubuntu") := by
  refine ⟨fun text key h => ?_, by decide, by decide⟩
  have hkey : (key ++ ['=']) ≠ [] := by simp
  match hsp : splitStr (key ++ ['=']) text with
  | [] => exact absurd hsp (splitStr_ne_nil _ _)
  | [a] =>
    unfold parse_osr_key parse_osr_key_spec
    rw [hsp]
    simp
  | a :: b :: L =>
    have h2 : (a :: b :: L).length ≤ 2 := hsp ▸ h
    have hL : L = [] := by
      simp only [List.length_cons] at h2
      exact List.length_eq_zero.mp (by omega)
    subst hL
    have hrecon : a ++ ((key ++ ['=']) ++ b) = text := by
      have hj := joinSep_splitStr (key ++ ['=']) hkey text
      rw [hsp] at hj
      simpa [joinSep, List.append_assoc] using hj
    have hdrop : text.drop (a.length + (key ++ ['=']).length) = b := by
      rw [← hrecon, ← List.append_assoc]
      rw [show a.length + (key ++ ['=']).length = (a ++ (key ++ ['='])).length by simp]
      exact List.drop_left _ _
    unfold parse_osr_key parse_osr_key_spec
    rw [hsp]
    simp only [List.getElem?_cons_succ, List.getElem?_cons_zero]
    rw [hdrop]
    by_cases hn : b.contains '\n' = true
    · rw [if_pos hn, if_pos hn]
      cases hs : splitStr ['\n'] b with
      | nil => exact absurd hs (splitStr_ne_nil _ _)
      | cons x xs =>
        simp only [List.head?, List.headD]
        by_cases hq : x.contains '"' = true
        · rw [if_pos hq]
        · rw [if_neg hq,
            filter_eq_self_of_not_contains (Bool.not_eq_true _ ▸ hq)]
    · rw [if_neg hn, if_neg hn]
      simp only
      by_cases hq : b.contains '"' = true
      · rw [if_pos hq]
      · rw [if_neg hq,
          filter_eq_self_of_not_contains (Bool.not_eq_true _ ▸ hq)]

/-- C6 witness: the amended equation applied at a text in which the key
pattern occurs exactly once. -/
theorem c6_witness :
    parse_osr_key (str "NAME=\"Ubuntu\"\n") (str "NAME") =
      parse_osr_key_spec (str "NAME=\"Ubuntu\"\n") (str "NAME") :=
  c6_first_occurrence_amended.1 (str "NAME=\"Ubuntu\"\n") (str "NAME") (by decide)

theorem ite_ne_nil_of_ne_nil {p : Prop} [Decidable p] {x y : Str}
    (hx : x ≠ []) (hy : y ≠ []) : (if p then x else y) ≠ [] := by
  split <;> assumption

theorem formatted_eq_joinSep (s : Nat) (h : uptimeClauses s ≠ []) :
    uptimeFormatted s = joinSep (str ", ") (uptimeClauses s) := by
  have esep : str ", " = [',', ' '] := rfl
  have hdh : 0 < uptimeDays s → 0 < uptimeHours s := by
    simp only [uptimeDays, uptimeHours]
    omega
  rcases Nat.eq_zero_or_pos (uptimeMinutes s) with hm | hm <;>
    rcases Nat.eq_zero_or_pos (uptimeHours s) with hh | hh <;>
    rcases Nat.eq_zero_or_pos (uptimeDays s) with hd | hd
  · -- all zero: contradicts the non-empty clause list
    exact absurd (by simp [uptimeClauses, hm, hh, hd]) h
  · -- days positive but hours zero: impossible
    exact absurd (hdh hd) (by omega)
  · -- hours only
    have hfd : fmtDays s = [] := by simp [fmtDays, hd]
    have hfh : fmtHours s = natStr (uptimeHours s) ++
        (if 1 < uptimeHours s then str " hours" else str " hour") := by
      simp [fmtHours, hh, hd, hfd, hm]
    have hfm : fmtMinutes s = fmtHours s := by simp [fmtMinutes, hm]
    have hne : fmtMinutes s ≠ [] := by
      rw [hfm, hfh]
      intro hx
      rcases List.append_eq_nil.mp hx with ⟨h1, h2⟩
      split at h2 <;> exact absurd h2 (by decide)
    have hcl : uptimeClauses s = [natStr (uptimeHours s) ++
        (if 1 < uptimeHours s then str " hours" else str " hour")] := by
      simp [uptimeClauses, hm, hh, hd]
    rw [uptimeFormatted, if_neg hne, hfm, hfh, hcl]
    simp [joinSep]
  · -- days and hours
    have hfd : fmtDays s = natStr (uptimeDays s) ++
        (if 1 < uptimeDays s then str " days" else str " day") ++ [','] := by
      simp [fmtDays, hd, hh]
    have hfh : fmtHours s = fmtDays s ++ [' '] ++ natStr (uptimeHours s) ++
        (if 1 < uptimeHours s then str " hours" else str " hour") := by
      simp [fmtHours, hh, hd, hm]
    have hfm : fmtMinutes s = fmtHours s := by simp [fmtMinutes, hm]
    have hne : fmtMinutes s ≠ [] := by
      rw [hfm, hfh]
      intro hx
      rcases List.append_eq_nil.mp hx with ⟨h1, h2⟩
      split at h2 <;> exact absurd h2 (by decide)
    have hcl : uptimeClauses s =
        [natStr (uptimeDays s) ++
          (if 1 < uptimeDays s then str " days" else str " day"),
         natStr (uptimeHours s) ++
          (if 1 < uptimeHours s then str " hours" else str " hour")] := by
      simp [uptimeClauses, hm, hh, hd]
    rw [uptimeFormatted, if_neg hne, hfm, hfh, hfd, hcl]
    simp [joinSep, esep]
  · -- minutes only
    have hfd : fmtDays s = [] := by simp [fmtDays, hd]
    have hfh : fmtHours s = [] := by simp [fmtHours, hh, hfd]
    have hfm : fmtMinutes s = natStr (uptimeMinutes s) ++
        (if 1 < uptimeMinutes s then str " minutes" else str " minute") := by
      simp [fmtMinutes, hm, hh, hd, hfh]
    have hne : fmtMinutes s ≠ [] := by
      rw [hfm]
      intro hx
      rcases List.append_eq_nil.mp hx with ⟨h1, h2⟩
      split at h2 <;> exact absurd h2 (by decide)
    have hcl : uptimeClauses s = [natStr (uptimeMinutes s) ++
        (if 1 < uptimeMinutes s then str " minutes" else str " minute")] := by
      simp [uptimeClauses, hm, hh, hd]
    rw [uptimeFormatted, if_neg hne, hfm, hcl]
    simp [joinSep]
  · -- days positive but hours zero: impossible
    exact absurd (hdh hd) (by omega)
  · -- hours and minutes
    have hfd : fmtDays s = [] := by simp [fmtDays, hd]
    have hfh : fmtHours s = natStr (uptimeHours s) ++
        (if 1 < uptimeHours s then str " hours" else str " hour") ++ [','] := by
      simp [fmtHours, hh, hd, hfd, hm]
    have hfm : fmtMinutes s = fmtHours s ++ [' '] ++ natStr (uptimeMinutes s) ++
        (if 1 < uptimeMinutes s then str " minutes" else str " minute") := by
      simp [fmtMinutes, hm, hh]
    have hne : fmtMinutes s ≠ [] := by
      rw [hfm]
      intro hx
      rcases List.append_eq_nil.mp hx with ⟨h1, h2⟩
      split at h2 <;> exact absurd h2 (by decide)
    have hcl : uptimeClauses s =
        [natStr (uptimeHours s) ++
          (if 1 < uptimeHours s then str " hours" else str " hour"),
         natStr (uptimeMinutes s) ++
          (if 1 < uptimeMinutes s then str " minutes" else str " minute")] := by
      simp [uptimeClauses, hm, hh, hd]
    rw [uptimeFormatted, if_neg hne, hfm, hfh, hcl]
    simp [joinSep, esep]
  · -- days, hours and minutes
    have hfd : fmtDays s = natStr (uptimeDays s) ++
        (if 1 < uptimeDays s then str " days" else str " day") ++ [','] := by
      simp [fmtDays, hd, hh]
    have hfh : fmtHours s = fmtDays s ++ [' '] ++ natStr (uptimeHours s) ++
        (if 1 < uptimeHours s then str " hours" else str " hour") ++ [','] := by
      simp [fmtHours, hh, hd, hm]
    have hfm : fmtMinutes s = fmtHours s ++ [' '] ++ natStr (uptimeMinutes s) ++
        (if 1 < uptimeMinutes s then str " minutes" else str " minute") := by
      simp [fmtMinutes, hm, hh]
    have hne : fmtMinutes s ≠ [] := by
      rw [hfm]
      intro hx
      rcases List.append_eq_nil.mp hx with ⟨h1, h2⟩
      split at h2 <;> exact absurd h2 (by decide)
    have hcl : uptimeClauses s =
        [natStr (uptimeDays s) ++
          (if 1 < uptimeDays s then str " days" else str " day"),
         natStr (uptimeHours s) ++
          (if 1 < uptimeHours s then str " hours" else str " hour"),
         natStr (uptimeMinutes s) ++
          (if 1 < uptimeMinutes s then str " minutes" else str " minute")] := by
      simp [uptimeClauses, hm, hh, hd]
    rw [uptimeFormatted, if_neg hne, hfm, hfh, hfd, hcl]
    simp [joinSep, esep]

/-- C3: whenever the uptime decomposition has at least one non-zero
component, the formatted string is exactly the in-order clause list of the
non-zero components — each clause singular/plural-selected, zero components
omitted — joined by the two-character separator `", "`. -/
theorem c3_format_join (text : Str)
    (h : uptimeClauses (uptimeSecondsOf text) ≠ []) :
    (get_uptime text).formatted =
      joinSep (str ", ") (uptimeClauses (uptimeSecondsOf text)) :=
  formatted_eq_joinSep (uptimeSecondsOf text) h

/-- C3 witness: the join statement at the concrete raw text `"65.91 130.52"`,
whose only clause is `"1 minute"`. -/
theorem c3_witness :
    (get_uptime (str "65.91 130.52")).formatted =
      joinSep (str ", ") (uptimeClauses (uptimeSecondsOf (str "65.91 130.52"))) :=
  c3_format_join (str "65.91 130.52") (by decide)

/-- C8 counterexample: on the text `"123 4.5"` the code takes the dot-delimited
piece `"123 4"`, whose parse fails, so the elapsed seconds are 0 — not the 123
obtained from the first whitespace-or-dot-delimited token of the claim. -/
theorem c8_counterexample :
    uptimeSecondsOf (str "123 4.5") = 0 ∧
    specUptimeSeconds (str "123 4.5") = 123 ∧ (0 : Nat) ≠ 123 := by decide

/-- C8 as amended: the elapsed-seconds count is the prefix of the raw text
before the first `'.'` (dot-delimited only; whitespace does not delimit),
parsed as `u32`, and any parse failure of that piece — including embedded
whitespace or overflow — yields zero rather than failing the gather. -/
theorem c8_dot_token_amended :
    (∀ text : Str,
      uptimeSecondsOf text =
        (parseU32 (text.takeWhile (fun c => c != '.'))).getD 0) ∧
    (∀ text : Str, parseU32 (text.takeWhile (fun c => c != '.')) = none →
      (get_uptime text).seconds = 0) := by
  have hhead : ∀ text : Str,
      (splitStr ['.'] text).headD [] = text.takeWhile (fun c => c != '.') := by
    intro text
    have h := splitStr_singleton_head '.' text
    cases hs : splitStr ['.'] text with
    | nil => exact absurd hs (splitStr_ne_nil ['.'] text)
    | cons a as =>
      rw [hs] at h
      simpa using h
  constructor
  · intro text
    show (parseU32 ((splitStr ['.'] text).headD [])).getD 0 = _
    rw [hhead]
  · intro text h
    show (parseU32 ((splitStr ['.'] text).headD [])).getD 0 = 0
    rw [hhead, h]
    rfl

/-- C8 witness: a raw text whose dot-delimited head fails to parse degrades
to zero elapsed seconds. -/
theorem c8_witness : (get_uptime (str "up 4.5")).seconds = 0 :=
  c8_dot_token_amended.2 (str "up 4.5") (by decide)

theorem rtry_some {α : Type} (a : α) : rtry (some a) = RRes.ok a := rfl

theorem rexpect_some {α : Type} (a : α) (msg : String) :
    rexpect (some a) msg = RRes.ok a := rfl

theorem kb_to_gb_nonneg {q : ℚ} (h : 0 ≤ q) :
    kb_to_gb q = RRes.ok (q * 1000 / 1000000000) := by
  unfold kb_to_gb Byte_from_unit_KB
  rw [if_neg (not_lt.mpr h)]
  rfl

theorem kb_to_gb_neg {q : ℚ} (h : q < 0) :
    kb_to_gb q = RRes.panicked "called Result::unwrap() on an Err value" := by
  unfold kb_to_gb Byte_from_unit_KB
  rw [if_pos h]
  rfl

/-- C1: when the parsed `MemTotal` value `t` and parsed `MemAvailable` value
`a` satisfy `t ≥ a ≥ 0` and the gather succeeds, the used-memory field is
exactly the `kb_to_gb` conversion of `t - a` and is non-negative; and
whenever the parsed `MemAvailable` exceeds the parsed `MemTotal`, the whole
gather operation fails (the negative difference is rejected by the unit
conversion, not clamped), so no `SystemInfo` is returned. -/
theorem c1_used_memory :
    (∀ (env : Env) (si : SystemInfo) (t a : ℚ) (st sa : Str),
      parse_minf_key env.meminfo (str "MemTotal") = some st →
      parseF64 st = some t →
      parse_minf_key env.meminfo (str "MemAvailable") = some sa →
      parseF64 sa = some a →
      0 ≤ a → a ≤ t →
      get_system_information env = RRes.ok si →
      kb_to_gb (t - a) = RRes.ok si.used_mem ∧ 0 ≤ si.used_mem) ∧
    (∀ (env : Env) (t a : ℚ) (st sa : Str),
      parse_minf_key env.meminfo (str "MemTotal") = some st →
      parseF64 st = some t →
      parse_minf_key env.meminfo (str "MemAvailable") = some sa →
      parseF64 sa = some a →
      t < a →
      (get_system_information env).failed = true) := by
  constructor
  · intro env si t a st sa hT hTf hA hAf ha hta hok
    unfold get_system_information at hok
    obtain ⟨x1, e1, hk1⟩ := RRes.bind_eq_ok hok
    obtain ⟨x2, e2, hk2⟩ := RRes.bind_eq_ok hk1
    obtain ⟨x3, e3, hk3⟩ := RRes.bind_eq_ok hk2
    obtain ⟨x4, e4, hk4⟩ := RRes.bind_eq_ok hk3
    obtain ⟨x5, e5, hk5⟩ := RRes.bind_eq_ok hk4
    obtain ⟨x6, e6, hk6⟩ := RRes.bind_eq_ok hk5
    obtain ⟨x7, e7, hk7⟩ := RRes.bind_eq_ok hk6
    obtain ⟨x8, e8, hk8⟩ := RRes.bind_eq_ok hk7
    obtain ⟨x9, e9, hk9⟩ := RRes.bind_eq_ok hk8
    obtain ⟨x10, e10, hk10⟩ := RRes.bind_eq_ok hk9
    obtain ⟨tks, e11, hk11⟩ := RRes.bind_eq_ok hk10
    obtain ⟨tkb, e12, hk12⟩ := RRes.bind_eq_ok hk11
    obtain ⟨aks, e13, hk13⟩ := RRes.bind_eq_ok hk12
    obtain ⟨akb, e14, hk14⟩ := RRes.bind_eq_ok hk13
    rw [hT, rtry_some] at e11
    obtain rfl := RRes.ok.inj e11
    rw [hTf, rexpect_some] at e12
    obtain rfl := RRes.ok.inj e12
    rw [hA, rtry_some] at e13
    obtain rfl := RRes.ok.inj e13
    rw [hAf, rexpect_some] at e14
    obtain rfl := RRes.ok.inj e14
    obtain ⟨used, e15, hk15⟩ := RRes.bind_eq_ok hk14
    obtain rfl := RRes.ok.inj hk15
    have h0 : 0 ≤ t - a := sub_nonneg.mpr hta
    rw [kb_to_gb_nonneg h0] at e15
    obtain rfl := RRes.ok.inj e15
    refine ⟨?_, ?_⟩
    · rw [kb_to_gb_nonneg h0]
    · show 0 ≤ (t - a) * 1000 / 1000000000
      exact div_nonneg (mul_nonneg h0 (by norm_num)) (by norm_num)
  · intro env t a st sa hT hTf hA hAf hlt
    unfold get_system_information
    apply RRes.failed_bind; intro x1 e1
    apply RRes.failed_bind; intro x2 e2
    apply RRes.failed_bind; intro x3 e3
    apply RRes.failed_bind; intro x4 e4
    apply RRes.failed_bind; intro x5 e5
    apply RRes.failed_bind; intro x6 e6
    apply RRes.failed_bind; intro x7 e7
    apply RRes.failed_bind; intro x8 e8
    apply RRes.failed_bind; intro x9 e9
    apply RRes.failed_bind; intro x10 e10
    apply RRes.failed_bind; intro tks e11
    rw [hT, rtry_some] at e11
    simp only [RRes.ok.injEq] at e11
    subst e11
    apply RRes.failed_bind; intro tkb e12
    rw [hTf, rexpect_some] at e12
    simp only [RRes.ok.injEq] at e12
    subst e12
    apply RRes.failed_bind; intro aks e13
    rw [hA, rtry_some] at e13
    simp only [RRes.ok.injEq] at e13
    subst e13
    apply RRes.failed_bind; intro akb e14
    rw [hAf, rexpect_some] at e14
    simp only [RRes.ok.injEq] at e14
    subst e14
    rw [kb_to_gb_neg (sub_neg.mpr hlt)]
    rfl

theorem minf_get_gb_envW (key : Str) (v : Str) (q : ℚ)
    (h1 : parse_minf_key envW.meminfo key = some v)
    (h2 : parseF64 v = some q) (h3 : 0 ≤ q) :
    minf_get_gb envW.meminfo key = RRes.ok (q * 1000 / 1000000000) := by
  unfold minf_get_gb
  rw [h1, rexpect_some, RRes.ok_bind, h2, rexpect_some, RRes.ok_bind,
    kb_to_gb_nonneg h3]

theorem gsi_envW : get_system_information envW = RRes.ok siW := by
  unfold get_system_information
  rw [show parse_osr_key envW.os_release (str "NAME") = some (str "Arch")
        from by decide,
    rtry_some, RRes.ok_bind,
    show parse_osr_key envW.os_release (str "ID") = some (str "arch")
        from by decide,
    rtry_some, RRes.ok_bind,
    show parse_osr_key envW.os_release (str "BUILD_ID") = some (str "rolling")
        from by decide,
    rtry_some, RRes.ok_bind,
    show get_by_type envW RType.Username = RRes.ok (some (str "user"))
        from by decide,
    RRes.ok_bind, rtry_some, RRes.ok_bind,
    show get_by_type envW RType.HostName = RRes.ok (some (str "host"))
        from by decide,
    RRes.ok_bind, rtry_some, RRes.ok_bind,
    show envW.shell_var = some (str "/bin/bash") from rfl,
    rexpect_some, RRes.ok_bind,
    show (splitStr ['/'] (str "/bin/bash")).getLast? = some (str "bash")
        from by decide,
    rtry_some, RRes.ok_bind,
    show get_by_type envW RType.KernelVersion = RRes.ok (some (str "6.1.0"))
        from by decide,
    RRes.ok_bind, rtry_some, RRes.ok_bind,
    minf_get_gb_envW (str "MemTotal") (str "4") 4 (by decide) (by decide)
      (by norm_num),
    RRes.ok_bind,
    minf_get_gb_envW (str "Cached") (str "2") 2 (by decide) (by decide)
      (by norm_num),
    RRes.ok_bind,
    minf_get_gb_envW (str "MemAvailable") (str "3") 3 (by decide) (by decide)
      (by norm_num),
    RRes.ok_bind,
    show parse_minf_key envW.meminfo (str "MemTotal") = some (str "4")
        from by decide,
    rtry_some, RRes.ok_bind,
    show parseF64 (str "4") = some 4 from by decide,
    rexpect_some, RRes.ok_bind,
    show parse_minf_key envW.meminfo (str "MemAvailable") = some (str "3")
        from by decide,
    rtry_some, RRes.ok_bind,
    show parseF64 (str "3") = some 3 from by decide,
    rexpect_some, RRes.ok_bind,
    kb_to_gb_nonneg (show (0 : ℚ) ≤ 4 - 3 by norm_num),
    RRes.ok_bind]
  rfl

/-- C1 witness: on a concrete gather with `MemTotal` 4 kB and `MemAvailable`
3 kB the used-memory field is the converted 1 kB difference; with `MemTotal`
1 kB and `MemAvailable` 2 kB the gather fails. -/
theorem c1_witness :
    (kb_to_gb ((4 : ℚ) - 3) = RRes.ok siW.used_mem ∧ 0 ≤ siW.used_mem) ∧
    (get_system_information envW2).failed = true :=
  ⟨c1_used_memory.1 envW siW 4 3 (str "4") (str "3")
      (by decide) (by decide) (by decide) (by decide) (by decide)
      (by norm_num) gsi_envW,
   c1_used_memory.2 envW2 1 2 (str "1") (str "2")
      (by decide) (by decide) (by decide) (by decide) (by decide)⟩

theorem truncate_at_nul_shape (r : Str) :
    (if r.contains '\x00' then (splitStr ['\x00'] r).head? else some r)
      = some (r.takeWhile (fun c => c != '\x00')) := by
  by_cases hc : r.contains '\x00' = true
  · rw [if_pos hc, splitStr_singleton_head]
  · rw [if_neg hc,
      takeWhile_eq_self_of_not_contains (Bool.not_eq_true _ ▸ hc)]

/-- C9: for each identity buffer (node name, kernel release) the string
returned by `get_by_type` is the buffer truncated at the first null byte;
when no null terminator is present the whole buffer content is used. -/
theorem c9_nul_truncation :
    ∀ env : Env,
      (get_by_type env RType.HostName =
          RRes.ok (some ((env.nodename).takeWhile (fun c => c != '\x00'))) ∧
        ((env.nodename).contains '\x00' = false →
          (env.nodename).takeWhile (fun c => c != '\x00') = env.nodename)) ∧
      (get_by_type env RType.KernelVersion =
          RRes.ok (some ((env.release).takeWhile (fun c => c != '\x00'))) ∧
        ((env.release).contains '\x00' = false →
          (env.release).takeWhile (fun c => c != '\x00') = env.release)) := by
  intro env
  refine ⟨⟨?_, fun h => takeWhile_eq_self_of_not_contains h⟩,
          ⟨?_, fun h => takeWhile_eq_self_of_not_contains h⟩⟩
  · show (RRes.ok env.nodename).bind _ = _
    rw [RRes.ok_bind, truncate_at_nul_shape]
  · show (RRes.ok env.release).bind _ = _
    rw [RRes.ok_bind, truncate_at_nul_shape]

/-- C9 witness: the truncation statement at a concrete environment whose
node-name buffer has no terminator. -/
theorem c9_witness :
    get_by_type envW RType.HostName =
      RRes.ok (some ((envW.nodename).takeWhile (fun c => c != '\x00'))) ∧
    (envW.nodename).takeWhile (fun c => c != '\x00') = envW.nodename :=
  ⟨(c9_nul_truncation envW).1.1, (c9_nul_truncation envW).1.2 (by decide)⟩

/-- C10: whenever `get_by_type` does not abort, it returns a present value:
for every environment and requested kind the result is either a panic or
`ok (some ...)`, never a returned `None` — splitting a string on the null
character always yields at least one piece. -/
theorem c10_none_unreachable :
    ∀ (env : Env) (t : RType),
      (∃ m, get_by_type env t = RRes.panicked m) ∨
      (∃ s, get_by_type env t = RRes.ok (some s)) := by
  intro env t
  cases t with
  | Username =>
    cases hl : env.login with
    | none =>
      left
      refine ⟨"[ERROR] Failed retrieving username!", ?_⟩
      show (rexpect env.login _).bind _ = _
      rw [hl]
      rfl
    | some l =>
      right
      refine ⟨l.takeWhile (fun c => c != '\x00'), ?_⟩
      show (rexpect env.login _).bind _ = _
      rw [hl]
      show (RRes.ok l).bind _ = _
      rw [RRes.ok_bind, truncate_at_nul_shape]
  | HostName =>
    right
    refine ⟨(env.nodename).takeWhile (fun c => c != '\x00'), ?_⟩
    show (RRes.ok env.nodename).bind _ = _
    rw [RRes.ok_bind, truncate_at_nul_shape]
  | KernelVersion =>
    right
    refine ⟨(env.release).takeWhile (fun c => c != '\x00'), ?_⟩
    show (RRes.ok env.release).bind _ = _
    rw [RRes.ok_bind, truncate_at_nul_shape]

end LxInfo
